import Mathlib

/-!
Shallow embedding of the CS2 market tracker's change-detection and ranking
engine, translated from the repository sources:

* `detect_spikes.py` — the spike-detection aggregation pipeline,
* `top_changes_snapshot.py` — the per-mode daily ranking pipeline,
* `top_changes_current_day.py` — the categorized daily ranking job,
* `cleanup_old_alerts.py` — the 24-hour retention cleanup.

Modelling conventions:
* Strings (item names) are modelled as lists of Unicode code points
  (`List ℕ`), so that Python's `str.lower()` and `re` word-boundary
  matching can be embedded as pure functions on code points.
* Period keys (`"YYYY-MM-DDTHH:00"`) sort lexicographically in exactly
  chronological order, so they are modelled as integer hour timestamps
  (`ℤ`); the `$toDate` conversion of a key to a timestamp is then the
  identity.
* BSON numeric values are modelled as `ℚ` (prices, percent deltas) and
  `ℤ` (quantities); BSON `null` is `Option.none`.
* A stored value on which `$toDouble` / `$toInt` raises (e.g. a
  non-numeric string) is modelled by the constructor `RawVal.bad`;
  aggregation stages that can raise return `Except Unit`.
* MongoDB sorts (`$sort`, `$sortArray`) are modelled by the stable
  `List.insertionSort`; `$group` with `$first` accumulators after a sort
  is modelled by keeping the first document per key in order of first
  appearance.
-/

deriving instance DecidableEq for Except

namespace CS2

/-- The `field` discriminator of a change entry (`"price"` / `"quantity"`). -/
inductive Field where
  | price
  | quantity
deriving DecidableEq, Repr

/-- The closed category set of `classify_item`. -/
inductive Category where
  | sticker
  | weapon
  | case
deriving DecidableEq, Repr

/- ---------------------------------------------------------------------
Classifier: `top_changes_current_day.py`, `classify_item` and its regex
keyword tables, embedded over code-point lists.
--------------------------------------------------------------------- -/

/-- Code points of a Lean string literal; used to write down the Python
string literals of the source. -/
def codes (s : String) : List ℕ := s.data.map Char.toNat

/-- Python `str.lower()` on a single code point, restricted to the ASCII
range that the classifier's patterns can interact with. -/
def lowerCode (n : ℕ) : ℕ := if 65 ≤ n ∧ n ≤ 90 then n + 32 else n

/-- Python `str.lower()` on a whole name. -/
def lowerCodes (l : List ℕ) : List ℕ := l.map lowerCode

/-- A regex word character (`\w` over ASCII): letters, digits, underscore. -/
def isWordCode (n : ℕ) : Bool :=
  (48 ≤ n && n ≤ 57) || (65 ≤ n && n ≤ 90) || (97 ≤ n && n ≤ 122) || n == 95

/-- After a candidate match of `w` at the head of `s`, the closing `\b`
holds iff the next character (if any) is not a word character.  (All
patterns in the source end in a word character.) -/
def boundaryAfter (w s : List ℕ) : Bool :=
  match s.drop w.length with
  | [] => true
  | c :: _ => !isWordCode c

/-- Scan of `re.search` for the pattern `\b w \b`: `prevWord` records
whether the character just before the current position is a word
character (all patterns in the source begin with a word character, so
the opening `\b` holds iff it is not). -/
def searchWordAux (w : List ℕ) (prevWord : Bool) : List ℕ → Bool
  | [] => false
  | c :: rest =>
      (!prevWord && w.isPrefixOf (c :: rest) && boundaryAfter w (c :: rest))
        || searchWordAux w (isWordCode c) rest

/-- `re.search(r"\b<w>\b", s)` for the literal word patterns of the
classifier. -/
def searchWord (w s : List ℕ) : Bool := searchWordAux w false s

/-- Python's substring containment `w in s` (no word boundaries). -/
def containsSub (w : List ℕ) : List ℕ → Bool
  | [] => w.isEmpty
  | c :: rest => w.isPrefixOf (c :: rest) || containsSub w rest

/-- `_CASE_KEYWORDS` of `top_changes_current_day.py`. -/
def CASE_KEYWORDS : List (List ℕ) :=
  [codes "case", codes "capsule", codes "package", codes "souvenir package",
   codes "collection", codes "graffiti box"]

/-- `_CASE_EXCLUDES` of `top_changes_current_day.py`. -/
def CASE_EXCLUDES : List (List ℕ) :=
  [codes "case hardened", codes "case-hardened", codes "casehardened"]

/-- `classify_item` of `top_changes_current_day.py`. -/
def classify_item (csfloat_id : List ℕ) : Category :=
  let name := lowerCodes csfloat_id
  if containsSub (codes "sticker") name then .sticker
  else if !(CASE_EXCLUDES.any (fun p => searchWord p name))
          && CASE_KEYWORDS.any (fun p => searchWord p name) then .case
  else .weapon

/- ---------------------------------------------------------------------
Spike detector: `detect_spikes.py`, the aggregation pipeline of `main`,
embedded per input document.
--------------------------------------------------------------------- -/

/-- A stored BSON value of the history maps.  `bad` stands for any value
on which `$toDouble` / `$toInt` raises (e.g. a non-numeric string). -/
inductive RawVal where
  | num (q : ℚ)
  | bad
deriving DecidableEq, Repr

/-- One document of the hourly history collection, as consumed by the
pipeline: the two period-keyed maps, already in `$objectToArray` form. -/
structure HistDoc where
  csfloat_id : List ℕ
  hourly_prices : List (ℤ × RawVal)
  hourly_quantity : List (ℤ × RawVal)
deriving DecidableEq, Repr

/-- `$toDouble`: numeric values convert, malformed values raise. -/
def toDoubleE : RawVal → Except Unit ℚ
  | .num q => .ok q
  | .bad => .error ()

/-- `$toInt`: numeric values truncate toward zero, malformed values raise. -/
def toIntE : RawVal → Except Unit ℤ
  | .num q => .ok (q.num / (q.den : ℤ))
  | .bad => .error ()

/-- Key order used by `$sortArray {sortBy: {k: 1}}`. -/
def keyLE (a b : ℤ × RawVal) : Prop := a.1 ≤ b.1

instance : DecidableRel keyLE := fun a b => inferInstanceAs (Decidable (a.1 ≤ b.1))

/-- `$sortArray {input: arr, sortBy: {k: 1}}`. -/
def sortByKey (l : List (ℤ × RawVal)) : List (ℤ × RawVal) := l.insertionSort keyLE

/-- `$slice [arr, -2]`: the last two elements (all of them if fewer). -/
def last2 {α : Type} (l : List α) : List α := l.drop (l.length - 2)

/-- `$cond [guard, convert(arrayElemAt(arr, i)), null]` — the element is
converted only when the size guard holds, otherwise the field is null. -/
def convAt {α : Type} (conv : RawVal → Except Unit α) (l : List (ℤ × RawVal))
    (i : ℕ) (g : Bool) : Except Unit (Option α) :=
  if g then
    match l.get? i with
    | some kv => (conv kv.2).map some
    | none => .ok none
  else .ok none

/-- The scalar fields produced by the third `$project` stage. -/
structure Vals where
  hour : Option ℤ
  price_prev : Option ℚ
  price_cur : Option ℚ
  qty_prev : Option ℤ
  qty_cur : Option ℤ
deriving DecidableEq, Repr

/-- Sequencing of fallible pipeline stages (`Except` bind): the first
conversion error aborts the aggregation. -/
def bindE {α β : Type} (x : Except Unit α) (f : α → Except Unit β) : Except Unit β :=
  match x with
  | .ok a => f a
  | .error e => .error e

/-- Stages 1–3 of the pipeline: sort each map by key, slice the last two
entries, and convert them (`price_prev`/`price_cur` via `$toDouble`,
`qty_prev`/`qty_cur` via `$toInt`); `hour` is the last price key. -/
def extract (d : HistDoc) : Except Unit Vals :=
  let p := last2 (sortByKey d.hourly_prices)
  let q := last2 (sortByKey d.hourly_quantity)
  let hour : Option ℤ :=
    if p.length > 0 then (p.get? (p.length - 1)).map Prod.fst else none
  bindE (convAt toDoubleE p (p.length - 2) (decide (p.length > 1))) fun pp =>
  bindE (convAt toDoubleE p (p.length - 1) (decide (p.length > 0))) fun pc =>
  bindE (convAt toIntE q (q.length - 2) (decide (q.length > 1))) fun qp =>
  bindE (convAt toIntE q (q.length - 1) (decide (q.length > 0))) fun qc =>
  .ok ⟨hour, pp, pc, qp, qc⟩

/-- `price_delta` of the `$addFields` stage: null unless both values are
present and the previous one is non-zero. -/
def price_delta (v : Vals) : Option ℚ :=
  match v.price_prev, v.price_cur with
  | some p, some c => if p ≠ 0 then some ((c - p) / p) else none
  | _, _ => none

/-- `qty_abs` of the `$addFields` stage. -/
def qty_abs (v : Vals) : Option ℤ :=
  match v.qty_prev, v.qty_cur with
  | some p, some c => some |c - p|
  | _, _ => none

/-- `qty_delta` of the `$addFields` stage: null unless both values are
present and the previous one is non-zero (no other fallback base). -/
def qty_delta (v : Vals) : Option ℚ :=
  match v.qty_prev, v.qty_cur with
  | some p, some c => if p ≠ 0 then some (((c : ℚ) - (p : ℚ)) / (p : ℚ)) else none
  | _, _ => none

/-- Detection thresholds (`PRICE_PCT`, `QTY_PCT`, `MIN_QTY_DELTA`). -/
structure Config where
  PRICE_PCT : ℚ
  QTY_PCT : ℚ
  MIN_QTY_DELTA : ℤ

/-- `{f: {$gte: x}}` on a nullable numeric field: null never matches. -/
def ogeQ (o : Option ℚ) (x : ℚ) : Bool :=
  match o with
  | some v => x ≤ v
  | none => false

/-- `{f: {$lte: x}}` on a nullable numeric field: null never matches. -/
def oleQ (o : Option ℚ) (x : ℚ) : Bool :=
  match o with
  | some v => v ≤ x
  | none => false

/-- `{f: {$gte: x}}` on a nullable integer field. -/
def ogeZ (o : Option ℤ) (x : ℤ) : Bool :=
  match o with
  | some v => x ≤ v
  | none => false

/-- The `$match` stage: price beyond ±`PRICE_PCT`, or quantity with
absolute delta at least `MIN_QTY_DELTA` and percent delta beyond
±`QTY_PCT`. -/
def matchStage (cfg : Config) (v : Vals) : Bool :=
  (ogeQ (price_delta v) cfg.PRICE_PCT || oleQ (price_delta v) (-cfg.PRICE_PCT))
    || (ogeZ (qty_abs v) cfg.MIN_QTY_DELTA
        && (ogeQ (qty_delta v) cfg.QTY_PCT || oleQ (qty_delta v) (-cfg.QTY_PCT)))

/-- One element of a stored `changes` array. -/
structure ChangeEntry where
  field : Field
  prev : Option ℚ
  cur : Option ℚ
  abs_change : Option ℚ
  pct_change : Option ℚ
deriving DecidableEq, Repr

/-- `$subtract` on nullable numerics (null-propagating). -/
def osub (a b : Option ℚ) : Option ℚ :=
  match a, b with
  | some x, some y => some (x - y)
  | _, _ => none

/-- `$subtract` on nullable integers. -/
def osubZ (a b : Option ℤ) : Option ℤ :=
  match a, b with
  | some x, some y => some (x - y)
  | _, _ => none

/-- Numeric embedding of nullable integers into nullable rationals. -/
def ocastZQ : Option ℤ → Option ℚ := Option.map (fun n => (n : ℚ))

/-- The `changes` array of the final `$project`: the price element is
kept iff `price_delta` is non-null, the quantity element iff `qty_abs`
and `qty_delta` are both non-null (`$$REMOVE` otherwise). -/
def changesOf (v : Vals) : List ChangeEntry :=
  (if price_delta v ≠ none then
    [⟨.price, v.price_prev, v.price_cur, osub v.price_cur v.price_prev, price_delta v⟩]
   else [])
    ++ (if qty_abs v ≠ none ∧ qty_delta v ≠ none then
      [⟨.quantity, ocastZQ v.qty_prev, ocastZQ v.qty_cur,
        ocastZQ (osubZ v.qty_cur v.qty_prev), qty_delta v⟩]
     else [])

/-- One output document of the pipeline, destined for the alerts
collection (`$merge` on `(csfloat_id, hour)` with replace). -/
structure AlertDoc where
  csfloat_id : List ℕ
  hour : Option ℤ
  changes : List ChangeEntry
deriving DecidableEq, Repr

/-- The whole pipeline on one history document: `some` alert if the
`$match` stage passes, `none` if the document is filtered out, and an
error if a conversion raises. -/
def detectItem (cfg : Config) (d : HistDoc) : Except Unit (Option AlertDoc) :=
  bindE (extract d) fun v =>
  .ok (if matchStage cfg v then
    some ⟨d.csfloat_id, v.hour, changesOf v⟩
  else none)

/-- The aggregation over the whole collection: documents are processed
in order and the first conversion error aborts the run. -/
def detectBatch (cfg : Config) : List HistDoc → Except Unit (List AlertDoc)
  | [] => .ok []
  | d :: ds =>
    bindE (detectItem cfg d) fun r =>
    bindE (detectBatch cfg ds) fun rest =>
    .ok (match r with
      | some a => a :: rest
      | none => rest)

/-- A history document none of whose stored values is malformed. -/
def WellFormed (d : HistDoc) : Prop :=
  (∀ kv ∈ d.hourly_prices, kv.2 ≠ RawVal.bad) ∧
    (∀ kv ∈ d.hourly_quantity, kv.2 ≠ RawVal.bad)

/-- The default thresholds of `detect_spikes.py` (`0.15`, `0.50`, `10`). -/
def defaultConfig : Config := ⟨15/100, 1/2, 10⟩

/- ---------------------------------------------------------------------
Ranking pipelines: `top_changes_snapshot.py` (`make_pipeline`) and
`top_changes_current_day.py` (`pipeline_price` / `pipeline_quantity` /
`pipeline_any`, `split_by_category`, `main`).
--------------------------------------------------------------------- -/

/-- An unwound document: one `(alert, change)` pair after `$unwind`. -/
structure URow where
  csfloat_id : List ℕ
  hour : Option ℤ
  change : ChangeEntry
deriving DecidableEq, Repr

/-- A scored/grouped ranking row, as produced by the `$group` stages and
emitted into snapshot documents. -/
structure Row where
  csfloat_id : List ℕ
  field : Field
  hour : Option ℤ
  prev : Option ℚ
  cur : Option ℚ
  abs_change : Option ℚ
  pct_change : Option ℚ
  score : Option ℚ
deriving DecidableEq, Repr

/-- Nullable rational as a BSON sort key: null sorts below all numbers. -/
def obotQ : Option ℚ → WithBot ℚ
  | none => ⊥
  | some q => (q : WithBot ℚ)

/-- Nullable timestamp as a BSON sort key: null sorts below all numbers. -/
def obotZ : Option ℤ → WithBot ℤ
  | none => ⊥
  | some t => (t : WithBot ℤ)

/-- Compound sort key of the `$sort {score: -1, hour: -1}` stages. -/
def sortKey (r : Row) : Lex ((WithBot ℚ) × (WithBot ℤ)) :=
  toLex (obotQ r.score, obotZ r.hour)

/-- Descending (score, hour) order: `a` may precede `b` iff `b`'s key is
at most `a`'s. -/
def rankRel (a b : Row) : Prop := sortKey b ≤ sortKey a

instance : DecidableRel rankRel :=
  fun a b => inferInstanceAs (Decidable (sortKey b ≤ sortKey a))

instance : IsTotal Row rankRel :=
  ⟨fun a b => le_total (sortKey b) (sortKey a)⟩

instance : IsTrans Row rankRel :=
  ⟨fun _ _ _ h1 h2 => le_trans h2 h1⟩

/-- `$sort {score: -1, hour: -1}` (stable). -/
def sortRows (l : List Row) : List Row := l.insertionSort rankRel

/-- The `TOP_METRIC` configuration value (`"pct"` or `"abs"`). -/
inductive Metric where
  | pct
  | abs
deriving DecidableEq, Repr

/-- The score expression `{$abs: "$changes.pct_change"}` resp.
`{$abs: "$changes.abs_change"}` (`$abs` of null is null). -/
def scoreOf (m : Metric) (ch : ChangeEntry) : Option ℚ :=
  match m with
  | .pct => ch.pct_change.map (fun x => |x|)
  | .abs => ch.abs_change.map (fun x => |x|)

/-- `{hour: {$gte: start, $lt: end}}` on the nullable hour field. -/
def inWindow (h : Option ℤ) (s e : ℤ) : Bool :=
  match h with
  | some t => decide (s ≤ t) && decide (t < e)
  | none => false

/-- `$unwind: "$changes"`: documents with an empty array are dropped. -/
def unwindChanges (docs : List AlertDoc) : List URow :=
  docs.flatMap (fun d => d.changes.map (fun ch => ⟨d.csfloat_id, d.hour, ch⟩))

/-- The `$addFields {score: ...}` stage on one unwound row; the `$group`
stages later rebuild exactly these fields with `$first`. -/
def scoreRow (m : Metric) (u : URow) : Row :=
  ⟨u.csfloat_id, u.change.field, u.hour, u.change.prev, u.change.cur,
   u.change.abs_change, u.change.pct_change, scoreOf m u.change⟩

/-- Worker for `groupFirst`: keeps the first row per key, skipping keys
already seen. -/
def groupFirstAux {κ : Type} [DecidableEq κ] (key : Row → κ) (seen : List κ) :
    List Row → List Row
  | [] => []
  | a :: as =>
    if key a ∈ seen then groupFirstAux key seen as
    else a :: groupFirstAux key (key a :: seen) as

/-- `$group {_id: key, fields: {$first: ...}}` after a sort: one output
row per distinct key, carrying the first (i.e. best-sorted) row of the
group. -/
def groupFirst {κ : Type} [DecidableEq κ] (key : Row → κ) (l : List Row) : List Row :=
  groupFirstAux key [] l

/-- The `field_mode` argument of `make_pipeline`. -/
inductive FieldMode where
  | price
  | quantity
  | any
deriving DecidableEq, Repr

/-- The change field selected by a single-field mode. -/
def fieldOfMode : FieldMode → Field
  | .price => Field.price
  | _ => Field.quantity

/-- `make_pipeline` of `top_changes_snapshot.py`: window match, unwind,
optional single-field match, score, sort, group per (item, field),
optional second group per item for `"any"`, final sort, limit. -/
def make_pipeline (s e : ℤ) (field_mode : FieldMode) (metric : Metric)
    (limit : ℕ) (alerts : List AlertDoc) : List Row :=
  let rows := unwindChanges (alerts.filter (fun d => inWindow d.hour s e))
  let rows := match field_mode with
    | .any => rows
    | m => rows.filter (fun u => u.change.field = fieldOfMode m)
  let scored := (rows.map (scoreRow metric))
  let grouped := groupFirst (fun r => (r.csfloat_id, r.field)) (sortRows scored)
  let grouped := match field_mode with
    | .any => groupFirst (fun r => r.csfloat_id) (sortRows grouped)
    | _ => grouped
  (sortRows grouped).take limit

/-- `pipeline_price` of `top_changes_current_day.py`: like the snapshot
price pipeline, but grouped directly per item. -/
def pipeline_price (s e : ℤ) (metric : Metric) (limit : ℕ)
    (alerts : List AlertDoc) : List Row :=
  let rows := unwindChanges (alerts.filter (fun d => inWindow d.hour s e))
  let rows := rows.filter (fun u => u.change.field = Field.price)
  let grouped := groupFirst (fun r => r.csfloat_id) (sortRows (rows.map (scoreRow metric)))
  (sortRows grouped).take limit

/-- `pipeline_quantity` of `top_changes_current_day.py`. -/
def pipeline_quantity (s e : ℤ) (metric : Metric) (limit : ℕ)
    (alerts : List AlertDoc) : List Row :=
  let rows := unwindChanges (alerts.filter (fun d => inWindow d.hour s e))
  let rows := rows.filter (fun u => u.change.field = Field.quantity)
  let grouped := groupFirst (fun r => r.csfloat_id) (sortRows (rows.map (scoreRow metric)))
  (sortRows grouped).take limit

/-- `pipeline_any` of `top_changes_current_day.py`: best per
(item, field), then best per item. -/
def pipeline_any (s e : ℤ) (metric : Metric) (limit : ℕ)
    (alerts : List AlertDoc) : List Row :=
  let scored := (unwindChanges (alerts.filter (fun d => inWindow d.hour s e))).map (scoreRow metric)
  let g1 := groupFirst (fun r => (r.csfloat_id, r.field)) (sortRows scored)
  let g2 := groupFirst (fun r => r.csfloat_id) (sortRows g1)
  (sortRows g2).take limit

/-- `split_by_category` of `top_changes_current_day.py`, restricted to
one category bucket: the rows of `rows` classified into `cat`, in input
order. -/
def split_by_category (cat : Category) (rows : List Row) : List Row :=
  rows.filter (fun r => classify_item r.csfloat_id = cat)

/-- `day_window`: the UTC day window `[24*day, 24*(day+1))` in hours. -/
def day_window (day : ℤ) : ℤ × ℤ := (24 * day, 24 * day + 24)

/-- `count_alerts_in_window`. -/
def count_alerts_in_window (alerts : List AlertDoc) (s e : ℤ) : ℕ :=
  (alerts.filter (fun d => inWindow d.hour s e)).length

/-- The per-category snapshot document written by
`top_changes_current_day.py` (`window` and the three top lists). -/
structure CatDoc where
  category : Category
  window_start : ℤ
  window_end : ℤ
  top_price : List Row
  top_quantity : List Row
  top_any : List Row
deriving DecidableEq, Repr

/-- The day-selection and fallback logic of `main` in
`top_changes_current_day.py`: explicit `SNAPSHOT_DATE` wins and disables
the fallback; otherwise, if today's window is empty and yesterday's is
not, yesterday's window is used. -/
def effective_window (snapshotDate : Option ℤ) (disableFallback : Bool)
    (alerts : List AlertDoc) (today : ℤ) : ℤ × ℤ :=
  let target := snapshotDate.getD today
  let w := day_window target
  if snapshotDate = none ∧ disableFallback = false then
    if count_alerts_in_window alerts w.1 w.2 = 0 then
      let y := day_window (target - 1)
      if 0 < count_alerts_in_window alerts y.1 y.2 then y else w
    else w
  else w

/-- `main` of `top_changes_current_day.py` (pure core): selects the
window, runs the three pipelines with the hard-coded internal limit of
5000, splits by category and truncates to `TOP_LIMIT` per category; one
document per category is always written. -/
def top_changes_current_day (snapshotDate : Option ℤ) (disableFallback : Bool)
    (metric : Metric) (topLimit : ℕ) (alerts : List AlertDoc) (today : ℤ) :
    List CatDoc :=
  let w := effective_window snapshotDate disableFallback alerts today
  let price_rows := pipeline_price w.1 w.2 metric 5000 alerts
  let qty_rows := pipeline_quantity w.1 w.2 metric 5000 alerts
  let any_rows := pipeline_any w.1 w.2 metric 5000 alerts
  [Category.sticker, Category.weapon, Category.case].map (fun cat =>
    ⟨cat, w.1, w.2,
     (split_by_category cat price_rows).take topLimit,
     (split_by_category cat qty_rows).take topLimit,
     (split_by_category cat any_rows).take topLimit⟩)

/-- The spec's full ranked, deduplicated price set before any
truncation: `pipeline_price` without its `$limit` stage.  (Spec-side
definition, used to compare the code's categorized truncation against
the spec's "partition the full ranked (pre-truncation) set".) -/
def ranked_price_full (s e : ℤ) (metric : Metric) (alerts : List AlertDoc) : List Row :=
  let rows := unwindChanges (alerts.filter (fun d => inWindow d.hour s e))
  let rows := rows.filter (fun u => u.change.field = Field.price)
  let grouped := groupFirst (fun r => r.csfloat_id) (sortRows (rows.map (scoreRow metric)))
  sortRows grouped

/-- The full ranked quantity set before truncation (spec-side). -/
def ranked_quantity_full (s e : ℤ) (metric : Metric) (alerts : List AlertDoc) : List Row :=
  let rows := unwindChanges (alerts.filter (fun d => inWindow d.hour s e))
  let rows := rows.filter (fun u => u.change.field = Field.quantity)
  let grouped := groupFirst (fun r => r.csfloat_id) (sortRows (rows.map (scoreRow metric)))
  sortRows grouped

/-- The full ranked best-of-fields set before truncation (spec-side). -/
def ranked_any_full (s e : ℤ) (metric : Metric) (alerts : List AlertDoc) : List Row :=
  let scored := (unwindChanges (alerts.filter (fun d => inWindow d.hour s e))).map (scoreRow metric)
  let g1 := groupFirst (fun r => (r.csfloat_id, r.field)) (sortRows scored)
  let g2 := groupFirst (fun r => r.csfloat_id) (sortRows g1)
  sortRows g2

/- ---------------------------------------------------------------------
Cleanup: `cleanup_old_alerts.py`.
--------------------------------------------------------------------- -/

/-- `{hour: {$lt: cutoff}}`: a null hour never matches `$lt`. -/
def hourLtB : Option ℤ → ℤ → Bool
  | some t, c => decide (t < c)
  | none, _ => false

/-- `cleanup_old_alerts`: `delete_many({hour: {$lt: now - 24h}})` — the
returned list is the collection after the deletion. -/
def cleanup_old_alerts (now : ℤ) (alerts : List AlertDoc) : List AlertDoc :=
  alerts.filter (fun a => !(hourLtB a.hour (now - 24)))

/- ---------------------------------------------------------------------
Concrete inputs used by counterexamples and witnesses.
--------------------------------------------------------------------- -/

/-- Item with a 5% price move (below the 15% threshold) and a
qualifying quantity move (10 → 30). -/
def c1doc : HistDoc :=
  ⟨codes "X", [(0, .num 100), (1, .num 105)], [(0, .num 10), (1, .num 30)]⟩

/-- Item with a flat price and a quantity rising from zero (0 → 100). -/
def c2doc : HistDoc :=
  ⟨codes "X", [(0, .num 100), (1, .num 100)], [(0, .num 0), (1, .num 100)]⟩

/-- Item whose only price keys 10 and 14 are not adjacent. -/
def c3doc : HistDoc :=
  ⟨codes "X", [(10, .num 100), (14, .num 200)], []⟩

/-- Item with a malformed stored value in one of the last two price
slots. -/
def c6bad : HistDoc := ⟨codes "Y", [(0, .bad), (1, .num 5)], []⟩

/-- The alert produced by `c1doc` under the default thresholds. -/
def c1alert : AlertDoc :=
  ⟨codes "X", some 1,
    [⟨.price, some 100, some 105, some 5, some (1/20)⟩,
     ⟨.quantity, some 10, some 30, some 20, some 2⟩]⟩

/-- A one-alert store: one change record at hour 5 (inside UTC day 0). -/
def c5alerts : List AlertDoc :=
  [⟨codes "A", some 5, [⟨.price, some 1, some 2, some 1, some 1⟩]⟩]

/-- A store with an old record (hour 10), a recent one (hour 90) and a
null-hour one, used against `cleanup_old_alerts` at time 100. -/
def c10alerts : List AlertDoc :=
  [⟨codes "old", some 10, []⟩, ⟨codes "new", some 90, []⟩, ⟨codes "nil", none, []⟩]

/-- The price change entry shared by all 5000 weapon-named alerts of
`bigAlerts` (percent delta 1). -/
def wchange : ChangeEntry := ⟨.price, some 1, some 2, some 1, some 1⟩

/-- The price change entry of the sticker alert of `bigAlerts` (percent
delta 1/2, strictly below the weapons). -/
def schange : ChangeEntry := ⟨.price, some 1, some 2, some 1, some (1/2)⟩

/-- 5000 distinct two-character item names that all classify as
`weapon`. -/
def wid (i : ℕ) : List ℕ := [97, 200 + i]

/-- One weapon alert at hour 1. -/
def wdoc (i : ℕ) : AlertDoc := ⟨wid i, some 1, [wchange]⟩

/-- The single sticker alert at hour 1. -/
def sdoc : AlertDoc := ⟨codes "sticker", some 1, [schange]⟩

/-- 5000 high-scoring weapon alerts followed by one lower-scoring
sticker alert, all inside UTC day 0. -/
def bigAlerts : List AlertDoc := (List.range 5000).map wdoc ++ [sdoc]

/-- The ranking row of the i-th weapon alert (score 1). -/
def wrow (i : ℕ) : Row := ⟨wid i, .price, some 1, some 1, some 2, some 1, some 1, some 1⟩

/-- The ranking row of the sticker alert (score 1/2). -/
def srow : Row := ⟨codes "sticker", .price, some 1, some 1, some 2, some 1, some (1/2), some (1/2)⟩

/-- The fully ranked, deduplicated row set of `bigAlerts`. -/
def bigRows : List Row := (List.range 5000).map wrow ++ [srow]

/-- The adjacency relation asserted by the sort invariant: descending
score with ties broken by descending period (null sorts last). -/
def adjRel (a b : Row) : Prop :=
  obotQ b.score ≤ obotQ a.score ∧
    (obotQ a.score = obotQ b.score → obotZ b.hour ≤ obotZ a.hour)

end CS2

section ScratchChecks
open CS2

example : classify_item (codes "Clutch Case") = .case := by decide
example : classify_item (codes "AK-47 | Case Hardened") = .weapon := by decide

-- C1 scratch: quantity qualifies, price change of 5% does not, yet a
-- price entry is emitted.
example :
    detectItem defaultConfig ⟨codes "X", [(0, .num 100), (1, .num 105)], [(0, .num 10), (1, .num 30)]⟩ =
      .ok (some ⟨codes "X", some 1,
        [⟨.price, some 100, some 105, some 5, some (1/20)⟩,
         ⟨.quantity, some 10, some 30, some 20, some 2⟩]⟩) := by
  norm_num [detectItem, extract, bindE, convAt, last2, sortByKey, matchStage, changesOf,
    price_delta, qty_abs, qty_delta, ogeQ, oleQ, ogeZ, osub, osubZ, ocastZQ,
    defaultConfig, toDoubleE, toIntE, keyLE, Except.map, Option.map, Option.some_ne_none]

-- C2 scratch: quantity rises from zero; no alert at all.
example :
    detectItem defaultConfig ⟨codes "X", [(0, .num 100), (1, .num 100)], [(0, .num 0), (1, .num 100)]⟩ =
      .ok none := by
  norm_num [detectItem, extract, bindE, convAt, last2, sortByKey, matchStage, changesOf,
    price_delta, qty_abs, qty_delta, ogeQ, oleQ, ogeZ, osub, osubZ, ocastZQ,
    defaultConfig, toDoubleE, toIntE, keyLE, Except.map, Option.map, Option.some_ne_none]

-- C3 scratch: non-adjacent keys 10 and 14 are compared.
example :
    detectItem defaultConfig ⟨codes "X", [(10, .num 100), (14, .num 200)], []⟩ =
      .ok (some ⟨codes "X", some 14, [⟨.price, some 100, some 200, some 100, some 1⟩]⟩) := by
  norm_num [detectItem, extract, bindE, convAt, last2, sortByKey, matchStage, changesOf,
    price_delta, qty_abs, qty_delta, ogeQ, oleQ, ogeZ, osub, osubZ, ocastZQ,
    defaultConfig, toDoubleE, toIntE, keyLE, Except.map, Option.map, Option.some_ne_none]

-- C6 scratch: a malformed value in the last two slots aborts.
example :
    detectItem defaultConfig ⟨codes "X", [(0, .bad), (1, .num 5)], []⟩ = .error () := by
  norm_num [detectItem, extract, bindE, convAt, last2, sortByKey, matchStage, changesOf,
    price_delta, qty_abs, qty_delta, ogeQ, oleQ, ogeZ, osub, osubZ, ocastZQ,
    defaultConfig, toDoubleE, toIntE, keyLE, Except.map, Option.map, Option.some_ne_none]

end ScratchChecks

section Theorems
open CS2

/- Classifier helper lemmas. -/

theorem lowerCode_idem (n : ℕ) : lowerCode (lowerCode n) = lowerCode n := by
  simp only [lowerCode]
  split_ifs <;> omega

theorem lowerCodes_idem (s : List ℕ) : lowerCodes (lowerCodes s) = lowerCodes s := by
  simp [lowerCodes, List.map_map, Function.comp_def, lowerCode_idem]

/-- C9: `classify` is total and deterministic into the closed set
{sticker, case, weapon}, case-insensitive, and applies the ordered rules
(sticker substring, then case keywords minus the case-hardened
exclusions, else weapon) as witnessed on the four reference names. -/
theorem claimC9 :
    classify_item (codes "Sticker | Titan (Holo)") = .sticker ∧
    classify_item (codes "Clutch Case") = .case ∧
    classify_item (codes "AK-47 | Case Hardened") = .weapon ∧
    classify_item (codes "AWP | Dragon Lore") = .weapon ∧
    (∀ s, classify_item s = .sticker ∨ classify_item s = .case ∨ classify_item s = .weapon) ∧
    (∀ s, classify_item (lowerCodes s) = classify_item s) := by
  refine ⟨by decide, by decide, by decide, by decide, ?_, ?_⟩
  · intro s
    simp only [classify_item]
    split_ifs <;> simp
  · intro s
    simp only [classify_item]
    rw [lowerCodes_idem]

/-- C10: cleanup removes exactly the change records whose hour is
strictly before `now - 24h`, keeps the rest (any record surviving with a
timestamp is at most 24 hours old), and a day window that ends more than
24 hours in the past is empty after cleanup. -/
theorem claimC10 (now : ℤ) (alerts : List AlertDoc) :
    (∀ a ∈ alerts, (a ∈ cleanup_old_alerts now alerts ↔ ¬ hourLtB a.hour (now - 24) = true)) ∧
    (∀ a ∈ cleanup_old_alerts now alerts, a ∈ alerts) ∧
    (∀ a ∈ cleanup_old_alerts now alerts, ∀ t, a.hour = some t → now - 24 ≤ t) ∧
    (∀ s e : ℤ, e < now - 24 →
      (cleanup_old_alerts now alerts).filter (fun d => inWindow d.hour s e) = []) := by
  refine ⟨?_, ?_, ?_, ?_⟩
  · intro a ha
    simp [cleanup_old_alerts, List.mem_filter, ha]
  · intro a ha
    exact (List.mem_filter.mp ha).1
  · intro a ha t ht
    have h2 := (List.mem_filter.mp ha).2
    simp [hourLtB, ht] at h2
    omega
  · intro s e he
    rw [List.filter_eq_nil_iff]
    intro a ha
    have h2 := (List.mem_filter.mp ha).2
    match h : a.hour with
    | none => simp [inWindow]
    | some t =>
      simp [hourLtB, h] at h2
      simp [inWindow]
      intro _
      omega

/-- C10 witness: at time 100, the record at hour 90 survives cleanup, and
the window [0, 24) (which ends 76 hours before 100) is empty afterwards. -/
theorem claimC10_witness :
    ((⟨codes "new", some 90, []⟩ : AlertDoc) ∈ cleanup_old_alerts 100 c10alerts ↔
      ¬ hourLtB (some 90) (100 - 24) = true) ∧
    (cleanup_old_alerts 100 c10alerts).filter (fun d => inWindow d.hour 0 24) = [] :=
  ⟨(claimC10 100 c10alerts).1 _ (by decide),
   (claimC10 100 c10alerts).2.2.2 0 24 (by decide)⟩

/-- C5: with no explicit day override and fallback enabled, an empty
current day falls back to the previous day (the written documents carry
the previous day's window); if the previous day is empty too, the three
per-category documents are still written, with the current day's window
and empty entry lists; an explicit override always fixes the window to
the overridden day, disabling the fallback. -/
theorem claimC5 (alerts : List AlertDoc) (today : ℤ) (metric : Metric) (lim : ℕ)
    (disable : Bool) :
    (count_alerts_in_window alerts (day_window today).1 (day_window today).2 = 0 →
      (0 < count_alerts_in_window alerts (day_window (today - 1)).1 (day_window (today - 1)).2 →
        effective_window none false alerts today = day_window (today - 1) ∧
        ∀ doc ∈ top_changes_current_day none false metric lim alerts today,
          (doc.window_start, doc.window_end) = day_window (today - 1)) ∧
      (count_alerts_in_window alerts (day_window (today - 1)).1 (day_window (today - 1)).2 = 0 →
        top_changes_current_day none false metric lim alerts today =
          [⟨.sticker, (day_window today).1, (day_window today).2, [], [], []⟩,
           ⟨.weapon, (day_window today).1, (day_window today).2, [], [], []⟩,
           ⟨.case, (day_window today).1, (day_window today).2, [], [], []⟩])) ∧
    (∀ d : ℤ, effective_window (some d) disable alerts today = day_window d ∧
      ∀ doc ∈ top_changes_current_day (some d) disable metric lim alerts today,
        (doc.window_start, doc.window_end) = day_window d) := by
  constructor
  · intro h0
    constructor
    · intro hy
      have heff : effective_window none false alerts today = day_window (today - 1) := by
        simp [effective_window, h0, hy]
      refine ⟨heff, ?_⟩
      intro doc hdoc
      simp only [top_changes_current_day, heff] at hdoc
      rcases List.mem_map.mp hdoc with ⟨cat, _, rfl⟩
      rfl
    · intro hy
      have heff : effective_window none false alerts today = day_window today := by
        simp [effective_window, h0, hy]
      have hf : alerts.filter
          (fun d => inWindow d.hour (day_window today).1 (day_window today).2) = [] := by
        simpa [count_alerts_in_window] using List.length_eq_zero.mp h0
      simp [top_changes_current_day, heff, pipeline_price, pipeline_quantity, pipeline_any,
        hf, unwindChanges, sortRows, groupFirst, groupFirstAux, split_by_category]
  · intro d
    have heff : effective_window (some d) disable alerts today = day_window d := by
      simp [effective_window]
    refine ⟨heff, ?_⟩
    intro doc hdoc
    simp only [top_changes_current_day, heff] at hdoc
    rcases List.mem_map.mp hdoc with ⟨cat, _, rfl⟩
    rfl

/-- C5 witness: with the one-alert store of day 0, requesting day 1 with
fallback enabled produces day 0's window; an empty store still yields
the three empty documents; and an explicit override to day 7 wins. -/
theorem claimC5_witness :
    effective_window none false c5alerts 1 = day_window 0 ∧
    top_changes_current_day none false .pct 50 [] 0 =
      [⟨.sticker, 0, 24, [], [], []⟩, ⟨.weapon, 0, 24, [], [], []⟩,
       ⟨.case, 0, 24, [], [], []⟩] ∧
    effective_window (some 7) true c5alerts 1 = day_window 7 := by
  refine ⟨?_, ?_, ?_⟩
  · have h := ((claimC5 c5alerts 1 .pct 50 false).1 (by decide)).1 (by decide)
    simpa using h.1
  · have h := ((claimC5 [] 0 .pct 50 false).1 (by decide)).2 (by decide)
    simpa [day_window] using h
  · exact ((claimC5 c5alerts 1 .pct 50 true).2 7).1

/- Grouping and sorting helper lemmas. -/

theorem groupFirstAux_sublist {κ : Type} [DecidableEq κ] (key : Row → κ)
    (seen : List κ) (l : List Row) : List.Sublist (groupFirstAux key seen l) l := by
  induction l generalizing seen with
  | nil => simp [groupFirstAux]
  | cons a as ih =>
    simp only [groupFirstAux]
    split_ifs with h
    · exact (ih seen).trans (List.sublist_cons_self a as)
    · exact List.Sublist.cons₂ a (ih _)

theorem groupFirstAux_not_seen {κ : Type} [DecidableEq κ] (key : Row → κ)
    (seen : List κ) (l : List Row) :
    ∀ r ∈ groupFirstAux key seen l, key r ∉ seen := by
  induction l generalizing seen with
  | nil => simp [groupFirstAux]
  | cons a as ih =>
    simp only [groupFirstAux]
    split_ifs with h
    · exact ih seen
    · intro r hr
      rcases List.mem_cons.mp hr with rfl | hr2
      · exact h
      · exact fun hs => ih (key a :: seen) r hr2 (List.mem_cons_of_mem _ hs)

theorem groupFirstAux_keys_nodup {κ : Type} [DecidableEq κ] (key : Row → κ)
    (seen : List κ) (l : List Row) :
    ((groupFirstAux key seen l).map key).Nodup := by
  induction l generalizing seen with
  | nil => simp [groupFirstAux]
  | cons a as ih =>
    simp only [groupFirstAux]
    split_ifs with h
    · exact ih seen
    · simp only [List.map_cons, List.nodup_cons]
      refine ⟨?_, ih _⟩
      intro hmem
      rcases List.mem_map.mp hmem with ⟨r, hr, hkey⟩
      exact groupFirstAux_not_seen key _ as r hr (by simp [hkey])

theorem groupFirst_keys_nodup {κ : Type} [DecidableEq κ] (key : Row → κ) (l : List Row) :
    ((groupFirst key l).map key).Nodup :=
  groupFirstAux_keys_nodup key [] l

theorem groupFirst_sublist {κ : Type} [DecidableEq κ] (key : Row → κ) (l : List Row) :
    List.Sublist (groupFirst key l) l :=
  groupFirstAux_sublist key [] l

theorem groupFirstAux_eq_self {κ : Type} [DecidableEq κ] (key : Row → κ)
    (seen : List κ) (l : List Row) (hn : (l.map key).Nodup)
    (hs : ∀ r ∈ l, key r ∉ seen) : groupFirstAux key seen l = l := by
  induction l generalizing seen with
  | nil => rfl
  | cons a as ih =>
    simp only [List.map_cons, List.nodup_cons] at hn
    simp only [groupFirstAux]
    rw [if_neg (hs a (List.mem_cons_self a as))]
    congr 1
    apply ih (key a :: seen) hn.2
    intro r hr
    intro hk
    rcases List.mem_cons.mp hk with hk1 | hk2
    · exact hn.1 (hk1 ▸ List.mem_map_of_mem key hr)
    · exact hs r (List.mem_cons_of_mem a hr) hk2

theorem groupFirst_eq_self {κ : Type} [DecidableEq κ] (key : Row → κ) (l : List Row)
    (hn : (l.map key).Nodup) : groupFirst key l = l :=
  groupFirstAux_eq_self key [] l hn (by simp)

theorem sortRows_sorted (l : List Row) : List.Sorted rankRel (sortRows l) :=
  List.sorted_insertionSort rankRel l

theorem sortRows_perm (l : List Row) : List.Perm (sortRows l) l :=
  List.perm_insertionSort rankRel l

theorem nodup_ids_of_const_field (l : List Row) (f : Field)
    (hk : (l.map (fun r => (r.csfloat_id, r.field))).Nodup)
    (hf : ∀ r ∈ l, r.field = f) :
    (l.map (fun r => r.csfloat_id)).Nodup := by
  induction l with
  | nil => simp
  | cons a as ih =>
    simp only [List.map_cons, List.nodup_cons] at hk ⊢
    refine ⟨?_, ih hk.2 (fun r hr => hf r (List.mem_cons_of_mem a hr))⟩
    intro hmem
    rcases List.mem_map.mp hmem with ⟨r, hr, hid⟩
    apply hk.1
    refine List.mem_map.mpr ⟨r, hr, ?_⟩
    rw [Prod.ext_iff]
    exact ⟨hid, (hf r (List.mem_cons_of_mem a hr)).trans
      (hf a (List.mem_cons_self a as)).symm⟩

/-- Ids of `(sortRows (groupFirst id X)).take limit` are distinct. -/
theorem nodup_ids_take_sort_group_id (X : List Row) (limit : ℕ) :
    (((sortRows (groupFirst (fun r => r.csfloat_id) X)).take limit).map
      (fun r => r.csfloat_id)).Nodup := by
  have h0 : ((groupFirst (fun r => r.csfloat_id) X).map (fun r => r.csfloat_id)).Nodup :=
    groupFirst_keys_nodup _ X
  have h1 : ((sortRows (groupFirst (fun r => r.csfloat_id) X)).map
      (fun r => r.csfloat_id)).Nodup :=
    (((sortRows_perm _).map _).nodup_iff).mpr h0
  exact h1.sublist ((List.take_sublist _ _).map _)

/-- Ids of `(sortRows (groupFirst (id, field) X)).take limit` are
distinct, provided every row of `X` has the same field. -/
theorem nodup_ids_take_sort_group_pair (X : List Row) (f : Field) (limit : ℕ)
    (hf : ∀ r ∈ X, r.field = f) :
    (((sortRows (groupFirst (fun r => (r.csfloat_id, r.field)) X)).take limit).map
      (fun r => r.csfloat_id)).Nodup := by
  have hk : ((groupFirst (fun r => (r.csfloat_id, r.field)) X).map
      (fun r => (r.csfloat_id, r.field))).Nodup := groupFirst_keys_nodup _ X
  have hf2 : ∀ r ∈ groupFirst (fun r => (r.csfloat_id, r.field)) X, r.field = f :=
    fun r hr => hf r ((groupFirst_sublist _ X).subset hr)
  have h0 := nodup_ids_of_const_field _ f hk hf2
  have h1 : ((sortRows (groupFirst (fun r => (r.csfloat_id, r.field)) X)).map
      (fun r => r.csfloat_id)).Nodup :=
    (((sortRows_perm _).map _).nodup_iff).mpr h0
  exact h1.sublist ((List.take_sublist _ _).map _)

/-- Rows coming out of a single-field filter + score stage all carry
that field. -/
theorem field_of_scored_filtered (us : List URow) (metric : Metric) (f : Field) :
    ∀ r ∈ (us.filter (fun u => u.change.field = f)).map (scoreRow metric),
      r.field = f := by
  intro r hr
  rcases List.mem_map.mp hr with ⟨u, hu, rfl⟩
  have := (List.mem_filter.mp hu).2
  simpa [scoreRow] using this

theorem field_of_sortRows (X : List Row) (f : Field)
    (hf : ∀ r ∈ X, r.field = f) : ∀ r ∈ sortRows X, r.field = f :=
  fun r hr => hf r ((sortRows_perm X).subset hr)

/-- C7: every ranking mode emits at most one entry per item — the "any"
(best-of-fields) mode and the single-field "price"/"quantity" modes of
both the snapshot pipeline and the current-day pipelines have pairwise
distinct `csfloat_id`s in their output. -/
theorem claimC7 (s e : ℤ) (metric : Metric) (limit : ℕ) (alerts : List AlertDoc) :
    ((make_pipeline s e .any metric limit alerts).map (fun r => r.csfloat_id)).Nodup ∧
    ((make_pipeline s e .price metric limit alerts).map (fun r => r.csfloat_id)).Nodup ∧
    ((make_pipeline s e .quantity metric limit alerts).map (fun r => r.csfloat_id)).Nodup ∧
    ((pipeline_price s e metric limit alerts).map (fun r => r.csfloat_id)).Nodup ∧
    ((pipeline_quantity s e metric limit alerts).map (fun r => r.csfloat_id)).Nodup ∧
    ((pipeline_any s e metric limit alerts).map (fun r => r.csfloat_id)).Nodup := by
  refine ⟨?_, ?_, ?_, ?_, ?_, ?_⟩
  · exact nodup_ids_take_sort_group_id _ limit
  · exact nodup_ids_take_sort_group_pair _ Field.price limit
      (field_of_sortRows _ _ (field_of_scored_filtered _ metric Field.price))
  · exact nodup_ids_take_sort_group_pair _ Field.quantity limit
      (field_of_sortRows _ _ (field_of_scored_filtered _ metric Field.quantity))
  · exact nodup_ids_take_sort_group_id _ limit
  · exact nodup_ids_take_sort_group_id _ limit
  · exact nodup_ids_take_sort_group_id _ limit

/-- Adjacent entries of any final sorted-and-truncated list descend in
score, with ties broken by descending period. -/
theorem chain_of_take_sort (g : List Row) (limit : ℕ) :
    List.Chain' adjRel ((sortRows g).take limit) := by
  have hp : List.Pairwise rankRel ((sortRows g).take limit) :=
    (sortRows_sorted g).sublist (List.take_sublist _ _)
  refine List.Pairwise.chain' (hp.imp ?_)
  intro a b hab
  have hab2 : toLex (obotQ b.score, obotZ b.hour) ≤ toLex (obotQ a.score, obotZ a.hour) := hab
  rcases (Prod.Lex.le_iff (obotQ b.score, obotZ b.hour) (obotQ a.score, obotZ a.hour)).mp hab2 with h | ⟨h1, h2⟩
  · exact ⟨le_of_lt h, fun heq => False.elim (lt_irrefl _ (heq ▸ h))⟩
  · exact ⟨le_of_eq h1, fun _ => h2⟩

/-- C8: in every produced ranked list (all three modes of the snapshot
pipeline and the three current-day pipelines), adjacent entries (a, b)
satisfy score(a) ≥ score(b), and period(a) ≥ period(b) when the scores
are equal. -/
theorem claimC8 (s e : ℤ) (metric : Metric) (limit : ℕ) (alerts : List AlertDoc) :
    (∀ mode, List.Chain' adjRel (make_pipeline s e mode metric limit alerts)) ∧
    List.Chain' adjRel (pipeline_price s e metric limit alerts) ∧
    List.Chain' adjRel (pipeline_quantity s e metric limit alerts) ∧
    List.Chain' adjRel (pipeline_any s e metric limit alerts) := by
  refine ⟨?_, chain_of_take_sort _ limit, chain_of_take_sort _ limit,
    chain_of_take_sort _ limit⟩
  intro mode
  cases mode with
  | price => exact chain_of_take_sort _ limit
  | quantity => exact chain_of_take_sort _ limit
  | any => exact chain_of_take_sort _ limit

/- Spike detector claims. -/

/-- C1 counterexample: a 5% price move (below the 15% threshold) is
stored as a price entry because the quantity change (10 → 30) made the
document qualify — the price-side Threshold Policy did not evaluate to
"qualifying" for that transition, yet a price entry is written. -/
theorem claimC1_counterexample :
    detectItem defaultConfig c1doc = .ok (some c1alert) ∧
    (∃ ch ∈ c1alert.changes, ch.field = Field.price) ∧
    ¬ (ogeQ (some ((105 - 100 : ℚ) / 100)) defaultConfig.PRICE_PCT = true ∨
       oleQ (some ((105 - 100 : ℚ) / 100)) (-defaultConfig.PRICE_PCT) = true) := by
  refine ⟨?_, ?_, ?_⟩
  · norm_num [detectItem, extract, bindE, convAt, last2, sortByKey, matchStage, changesOf,
      price_delta, qty_abs, qty_delta, ogeQ, oleQ, ogeZ, osub, osubZ, ocastZQ,
      defaultConfig, toDoubleE, toIntE, keyLE, Except.map, Option.map, Option.some_ne_none,
      c1doc, c1alert]
  · exact ⟨⟨.price, some 100, some 105, some 5, some (1/20)⟩, by simp [c1alert], rfl⟩
  · norm_num [ogeQ, oleQ, defaultConfig]

/-- C1 amended: an entry for a field is present in the stored record iff
that field's deltas were computable (both values present; non-zero
previous for the percent), and the document is stored only when the
match stage (price beyond threshold, or quantity beyond both
thresholds) passed for at least one field — a stored price entry does
not by itself certify the price threshold. -/
theorem claimC1_amended (cfg : Config) (d : HistDoc) (v : Vals) (a : AlertDoc)
    (hv : extract d = .ok v) (ha : detectItem cfg d = .ok (some a)) :
    matchStage cfg v = true ∧
    ((∃ ch ∈ a.changes, ch.field = Field.price) ↔ price_delta v ≠ none) ∧
    ((∃ ch ∈ a.changes, ch.field = Field.quantity) ↔
      (qty_abs v ≠ none ∧ qty_delta v ≠ none)) := by
  unfold detectItem at ha
  rw [hv] at ha
  simp only [bindE, Except.ok.injEq] at ha
  by_cases hm : matchStage cfg v = true
  · rw [if_pos hm] at ha
    have haa : a = ⟨d.csfloat_id, v.hour, changesOf v⟩ := (Option.some.inj ha).symm
    subst haa
    refine ⟨hm, ?_, ?_⟩
    · by_cases hp : price_delta v = none <;>
        by_cases hq : qty_abs v ≠ none ∧ qty_delta v ≠ none <;>
        simp [changesOf, hp, hq]
    · by_cases hp : price_delta v = none <;>
        by_cases hq : qty_abs v ≠ none ∧ qty_delta v ≠ none <;>
        simp [changesOf, hp, hq]
  · rw [if_neg hm] at ha
    cases ha

/-- C1 witness: the amended statement instantiated on the 5%-price /
qualifying-quantity document. -/
theorem claimC1_witness :
    matchStage defaultConfig ⟨some 1, some 100, some 105, some 10, some 30⟩ = true ∧
    ((∃ ch ∈ c1alert.changes, ch.field = Field.price) ↔
      price_delta ⟨some 1, some 100, some 105, some 10, some 30⟩ ≠ none) ∧
    ((∃ ch ∈ c1alert.changes, ch.field = Field.quantity) ↔
      (qty_abs ⟨some 1, some 100, some 105, some 10, some 30⟩ ≠ none ∧
       qty_delta ⟨some 1, some 100, some 105, some 10, some 30⟩ ≠ none)) :=
  claimC1_amended defaultConfig c1doc ⟨some 1, some 100, some 105, some 10, some 30⟩ c1alert
    (by norm_num [extract, bindE, convAt, last2, sortByKey, toDoubleE, toIntE, keyLE,
      Except.map, Option.map, c1doc])
    (by norm_num [detectItem, extract, bindE, convAt, last2, sortByKey, matchStage, changesOf,
      price_delta, qty_abs, qty_delta, ogeQ, oleQ, ogeZ, osub, osubZ, ocastZQ,
      defaultConfig, toDoubleE, toIntE, keyLE, Except.map, Option.map, Option.some_ne_none,
      c1doc, c1alert])

/-- C2 counterexample: quantity rises 0 → 100, which satisfies the
spec's fallback formula (|Δ| = 100 ≥ 10 and |Δ| / max(current, 1) =
1 ≥ 0.5), yet the detector stores nothing at all for the document —
there is no max(current, 1) fallback in the code. -/
theorem claimC2_counterexample :
    detectItem defaultConfig c2doc = .ok none ∧
    defaultConfig.MIN_QTY_DELTA ≤ |(100 : ℤ) - 0| ∧
    defaultConfig.QTY_PCT ≤ |(100 : ℚ) - 0| / (max 100 1) := by
  refine ⟨?_, ?_, ?_⟩
  · norm_num [detectItem, extract, bindE, convAt, last2, sortByKey, matchStage, changesOf,
      price_delta, qty_abs, qty_delta, ogeQ, oleQ, ogeZ, osub, osubZ, ocastZQ,
      defaultConfig, toDoubleE, toIntE, keyLE, Except.map, Option.map, Option.some_ne_none,
      c2doc]
  · norm_num [defaultConfig]
  · norm_num [defaultConfig]

/-- C2 amended: when the previous quantity is zero, `qty_delta` is null
(there is no fallback denominator), the evaluation still succeeds
(division by zero is guarded, nothing raises), and no quantity entry can
appear in a stored record for that document. -/
theorem claimC2_amended (cfg : Config) (d : HistDoc) (v : Vals)
    (hv : extract d = .ok v) (h0 : v.qty_prev = some 0) :
    qty_delta v = none ∧
    (∃ r, detectItem cfg d = .ok r) ∧
    (∀ a, detectItem cfg d = .ok (some a) → ∀ ch ∈ a.changes, ch.field ≠ Field.quantity) := by
  have hqd : qty_delta v = none := by
    unfold qty_delta
    rw [h0]
    cases v.qty_cur <;> simp
  refine ⟨hqd, ⟨_, by unfold detectItem; rw [hv]; rfl⟩, ?_⟩
  intro a ha
  unfold detectItem at ha
  rw [hv] at ha
  simp only [bindE, Except.ok.injEq] at ha
  by_cases hm : matchStage cfg v = true
  · rw [if_pos hm] at ha
    have haa : a = ⟨d.csfloat_id, v.hour, changesOf v⟩ := (Option.some.inj ha).symm
    subst haa
    intro ch hch
    simp only [changesOf, hqd] at hch
    by_cases hp : price_delta v = none
    · simp [hp] at hch
    · simp [hp] at hch
      subst hch
      simp
  · rw [if_neg hm] at ha
    cases ha

/-- C2 witness: the amended statement instantiated on the
quantity-0-to-100 document. -/
theorem claimC2_witness :
    qty_delta ⟨some 1, some 100, some 100, some 0, some 100⟩ = none ∧
    (∃ r, detectItem defaultConfig c2doc = .ok r) ∧
    (∀ a, detectItem defaultConfig c2doc = .ok (some a) →
      ∀ ch ∈ a.changes, ch.field ≠ Field.quantity) :=
  claimC2_amended defaultConfig c2doc ⟨some 1, some 100, some 100, some 0, some 100⟩
    (by norm_num [extract, bindE, convAt, last2, sortByKey, toDoubleE, toIntE, keyLE,
      Except.map, Option.map, c2doc])
    rfl

/-- C3 counterexample: the only stored price keys of `c3doc` are 10 and
14; bucket 13 (the immediately preceding bucket of 14) holds no value,
yet the detector emits a price change using the key-10 value 100 as the
previous value — the gap is bridged, not treated as missing. -/
theorem claimC3_counterexample :
    detectItem defaultConfig c3doc =
      .ok (some ⟨codes "X", some 14, [⟨.price, some 100, some 200, some 100, some 1⟩]⟩) ∧
    List.lookup 13 c3doc.hourly_prices = none ∧
    List.lookup 10 c3doc.hourly_prices = some (.num 100) := by
  refine ⟨?_, by decide, by decide⟩
  norm_num [detectItem, extract, bindE, convAt, last2, sortByKey, matchStage, changesOf,
    price_delta, qty_abs, qty_delta, ogeQ, oleQ, ogeZ, osub, osubZ, ocastZQ,
    defaultConfig, toDoubleE, toIntE, keyLE, Except.map, Option.map, Option.some_ne_none,
    c3doc]

/-- C3 amended: the detector always compares the values of the two most
recent stored period keys — for a key-sorted price series ending in
keys `k1` then `k2`, the previous value is the key-`k1` value and the
current value the key-`k2` value, with no requirement that
`k2 = k1 + 1`: gaps are bridged, not treated as missing.  (Stated for a
document with an empty quantity map, which isolates the price series.) -/
theorem claimC3_amended (d : HistDoc) (m0 : List (ℤ × RawVal)) (k1 k2 : ℤ)
    (q1 q2 : ℚ)
    (hp : d.hourly_prices = m0 ++ [(k1, .num q1), (k2, .num q2)])
    (hsorted : List.Pairwise keyLE d.hourly_prices)
    (hq : d.hourly_quantity = []) :
    extract d = .ok ⟨some k2, some q1, some q2, none, none⟩ := by
  have hsort : sortByKey d.hourly_prices = d.hourly_prices :=
    List.Sorted.insertionSort_eq hsorted
  have hl2 : last2 (sortByKey d.hourly_prices) =
      [(k1, RawVal.num q1), (k2, RawVal.num q2)] := by
    rw [hsort, hp]
    unfold last2
    rw [List.length_append]
    norm_num
  unfold extract
  rw [hl2, hq]
  norm_num [convAt, bindE, toDoubleE, Except.map, Option.map, sortByKey, last2]

/-- C3 witness: the amended statement instantiated on the gapped series
with keys 10 and 14 — bucket 13 is empty, yet the key-10 value 100 is
used as the previous value for the key-14 comparison. -/
theorem claimC3_witness :
    extract c3doc = .ok ⟨some 14, some 100, some 200, none, none⟩ :=
  claimC3_amended c3doc [] 10 14 100 200 rfl (by decide) rfl

/-- C6 counterexample: a batch holding one well-formed item and one item
with a malformed stored value errors as a whole — the malformed item is
not skipped-and-counted, and even the well-formed item's record is not
produced by that run (alone, the well-formed item does produce its
record). -/
theorem claimC6_counterexample :
    detectBatch defaultConfig [c1doc, c6bad] = .error () ∧
    detectBatch defaultConfig [c1doc] = .ok [c1alert] := by
  constructor <;>
    norm_num [detectBatch, detectItem, extract, bindE, convAt, last2, sortByKey, matchStage,
      changesOf, price_delta, qty_abs, qty_delta, ogeQ, oleQ, ogeZ, osub, osubZ, ocastZQ,
      defaultConfig, toDoubleE, toIntE, keyLE, Except.map, Option.map, Option.some_ne_none,
      c1doc, c6bad, c1alert]

/-- C6 amended: one item whose conversion raises (malformed stored
value in a compared slot) aborts the whole detection aggregation — the
batch returns an error instead of skipping and counting the item. -/
theorem claimC6_amended (cfg : Config) (ds : List HistDoc)
    (h : ∃ d ∈ ds, detectItem cfg d = .error ()) :
    detectBatch cfg ds = .error () := by
  induction ds with
  | nil =>
    rcases h with ⟨d, hd, _⟩
    cases hd
  | cons a as ih =>
    rcases h with ⟨d, hd, he⟩
    rcases List.mem_cons.mp hd with rfl | hd2
    · unfold detectBatch
      rw [he]
      rfl
    · unfold detectBatch
      cases hi : detectItem cfg a with
      | error e => cases e; rfl
      | ok r =>
        simp only [bindE]
        rw [ih ⟨d, hd2, he⟩]

/-- C6 witness: the amended statement instantiated on the two-item
batch with the malformed second item. -/
theorem claimC6_witness :
    detectBatch defaultConfig [c1doc, c6bad] = Except.error () :=
  claimC6_amended defaultConfig [c1doc, c6bad]
    ⟨c6bad, by simp,
     by norm_num [detectItem, extract, bindE, convAt, last2, sortByKey, matchStage, changesOf,
       price_delta, qty_abs, qty_delta, ogeQ, oleQ, ogeZ, osub, osubZ, ocastZQ,
       defaultConfig, toDoubleE, toIntE, keyLE, Except.map, Option.map, Option.some_ne_none,
       c6bad]⟩

/- C4: evaluation of the ranking job on the 5001-item store. -/

theorem pipeline_price_eq_take (s e : ℤ) (metric : Metric) (limit : ℕ)
    (alerts : List AlertDoc) :
    pipeline_price s e metric limit alerts =
      (ranked_price_full s e metric alerts).take limit := rfl

theorem pipeline_quantity_eq_take (s e : ℤ) (metric : Metric) (limit : ℕ)
    (alerts : List AlertDoc) :
    pipeline_quantity s e metric limit alerts =
      (ranked_quantity_full s e metric alerts).take limit := rfl

theorem pipeline_any_eq_take (s e : ℤ) (metric : Metric) (limit : ℕ)
    (alerts : List AlertDoc) :
    pipeline_any s e metric limit alerts =
      (ranked_any_full s e metric alerts).take limit := rfl

theorem flatMap_map_singleton {α β γ : Type} (l : List α) (f : α → β) (u : β → List γ)
    (h : α → γ) (hu : ∀ a, u (f a) = [h a]) : (l.map f).flatMap u = l.map h := by
  induction l with
  | nil => rfl
  | cons a as ih => simp [hu, ih]

theorem bigAlerts_filter :
    bigAlerts.filter (fun d => inWindow d.hour 0 24) = bigAlerts := by
  rw [List.filter_eq_self]
  intro d hd
  rcases List.mem_append.mp hd with h | h
  · rcases List.mem_map.mp h with ⟨i, _, rfl⟩
    rfl
  · simp only [List.mem_singleton] at h
    subst h
    rfl

/-- The unwound row list of `bigAlerts`. -/
theorem bigAlerts_unwind :
    unwindChanges bigAlerts =
      (List.range 5000).map (fun i => (⟨wid i, some 1, wchange⟩ : URow)) ++
        [(⟨codes "sticker", some 1, schange⟩ : URow)] := by
  show ((List.range 5000).map wdoc ++ [sdoc]).flatMap
      (fun d => d.changes.map (fun ch => (⟨d.csfloat_id, d.hour, ch⟩ : URow))) =
    (List.range 5000).map (fun i => (⟨wid i, some 1, wchange⟩ : URow)) ++
      [(⟨codes "sticker", some 1, schange⟩ : URow)]
  rw [List.flatMap_append,
    flatMap_map_singleton (List.range 5000) wdoc _
      (fun i => (⟨wid i, some 1, wchange⟩ : URow)) (fun i => rfl)]
  rfl

theorem bigURows_filter :
    (((List.range 5000).map (fun i => (⟨wid i, some 1, wchange⟩ : URow)) ++
      [(⟨codes "sticker", some 1, schange⟩ : URow)]).filter
        (fun u => u.change.field = Field.price)) =
      ((List.range 5000).map (fun i => (⟨wid i, some 1, wchange⟩ : URow)) ++
        [(⟨codes "sticker", some 1, schange⟩ : URow)]) := by
  rw [List.filter_eq_self]
  intro u hu
  rcases List.mem_append.mp hu with h | h
  · rcases List.mem_map.mp h with ⟨i, _, rfl⟩
    rfl
  · simp only [List.mem_singleton] at h
    subst h
    rfl

theorem bigRows_eq :
    (((List.range 5000).map (fun i => (⟨wid i, some 1, wchange⟩ : URow)) ++
      [(⟨codes "sticker", some 1, schange⟩ : URow)]).map (scoreRow .pct)) = bigRows := by
  unfold bigRows
  rw [List.map_append, List.map_map]
  have h1 : (List.range 5000).map
      (scoreRow .pct ∘ fun i => (⟨wid i, some 1, wchange⟩ : URow)) =
      (List.range 5000).map wrow := by
    apply List.map_congr_left
    intro i _
    show scoreRow .pct ⟨wid i, some 1, wchange⟩ = wrow i
    simp [scoreRow, scoreOf, wchange, wrow]
  have habs : |(1 : ℚ)/2| = 1/2 := abs_of_pos (by norm_num)
  have h2 : [(⟨codes "sticker", some 1, schange⟩ : URow)].map (scoreRow .pct) = [srow] := by
    simp [scoreRow, scoreOf, schange, srow, habs]
  rw [h1, h2]

theorem bigRows_sorted : List.Sorted rankRel bigRows := by
  show List.Pairwise rankRel ((List.range 5000).map wrow ++ [srow])
  rw [List.pairwise_append]
  refine ⟨?_, ?_, ?_⟩
  · rw [List.pairwise_map]
    apply List.pairwise_of_forall
    intro a b
    exact le_refl (sortKey (wrow a))
  · simp
  · intro a ha b hb
    rcases List.mem_map.mp ha with ⟨i, _, rfl⟩
    simp only [List.mem_singleton] at hb
    subst hb
    show sortKey srow ≤ sortKey (wrow i)
    apply (Prod.Lex.le_iff _ _).mpr
    left
    show obotQ (some (1/2)) < obotQ (some 1)
    simp only [obotQ]
    exact_mod_cast (by norm_num : (1:ℚ)/2 < 1)

theorem bigRows_sortRows : sortRows bigRows = bigRows :=
  List.Sorted.insertionSort_eq bigRows_sorted

theorem wid_injective : Function.Injective wid := by
  intro i j h
  simp only [wid, List.cons.injEq] at h
  omega

theorem sticker_codes_length : (codes "sticker").length = 7 := by decide

theorem wid_ne_sticker (i : ℕ) : wid i ≠ codes "sticker" := by
  intro h
  have h3 : (wid i).length = (codes "sticker").length := congrArg List.length h
  rw [sticker_codes_length] at h3
  simp [wid] at h3

theorem bigRows_ids_nodup : (bigRows.map (fun r => r.csfloat_id)).Nodup := by
  unfold bigRows
  rw [List.map_append, List.map_map]
  rw [List.nodup_append]
  refine ⟨?_, by simp, ?_⟩
  · exact (List.nodup_range 5000).map (fun a b h => wid_injective h)
  · intro x hx
    rcases List.mem_map.mp hx with ⟨i, _, rfl⟩
    simp only [List.map_cons, List.map_nil, List.mem_singleton]
    exact fun h => wid_ne_sticker i h
  
theorem bigRows_pairkeys_nodup :
    (bigRows.map (fun r => (r.csfloat_id, r.field))).Nodup := by
  apply List.Nodup.of_map Prod.fst
  rw [List.map_map]
  exact bigRows_ids_nodup

theorem bigRows_group_id : groupFirst (fun r => r.csfloat_id) bigRows = bigRows :=
  groupFirst_eq_self _ _ bigRows_ids_nodup

theorem bigRows_group_pair :
    groupFirst (fun r => (r.csfloat_id, r.field)) bigRows = bigRows :=
  groupFirst_eq_self _ _ bigRows_pairkeys_nodup

theorem ranked_price_full_big :
    ranked_price_full 0 24 .pct bigAlerts = bigRows := by
  show sortRows (groupFirst (fun r => r.csfloat_id)
    (sortRows ((((unwindChanges (bigAlerts.filter (fun d => inWindow d.hour 0 24))).filter
      (fun u => u.change.field = Field.price)).map (scoreRow .pct))))) = bigRows
  rw [bigAlerts_filter, bigAlerts_unwind, bigURows_filter, bigRows_eq, bigRows_sortRows,
    bigRows_group_id, bigRows_sortRows]

theorem ranked_any_full_big :
    ranked_any_full 0 24 .pct bigAlerts = bigRows := by
  show sortRows (groupFirst (fun r => r.csfloat_id)
    (sortRows (groupFirst (fun r => (r.csfloat_id, r.field))
      (sortRows ((unwindChanges (bigAlerts.filter (fun d => inWindow d.hour 0 24))).map
        (scoreRow .pct)))))) = bigRows
  rw [bigAlerts_filter, bigAlerts_unwind, bigRows_eq, bigRows_sortRows, bigRows_group_pair,
    bigRows_sortRows, bigRows_group_id, bigRows_sortRows]

theorem ranked_quantity_full_big :
    ranked_quantity_full 0 24 .pct bigAlerts = [] := by
  show sortRows (groupFirst (fun r => r.csfloat_id)
    (sortRows ((((unwindChanges (bigAlerts.filter (fun d => inWindow d.hour 0 24))).filter
      (fun u => u.change.field = Field.quantity)).map (scoreRow .pct))))) = []
  rw [bigAlerts_filter, bigAlerts_unwind]
  rw [List.filter_eq_nil_iff.mpr ?_]
  · rfl
  · intro u hu
    rcases List.mem_append.mp hu with h | h
    · rcases List.mem_map.mp h with ⟨i, _, rfl⟩
      simp [wchange]
    · simp only [List.mem_singleton] at h
      subst h
      simp [schange]

theorem bigRows_take : bigRows.take 5000 = (List.range 5000).map wrow := by
  show ((List.range 5000).map wrow ++ [srow]).take 5000 = (List.range 5000).map wrow
  apply List.take_left'
  simp

/- Length-based classifier facts for the counterexample names. -/

theorem isPrefixOf_length_le {w s : List ℕ} (h : w.isPrefixOf s = true) :
    w.length ≤ s.length := by
  induction w generalizing s with
  | nil => simp
  | cons a as ih =>
    cases s with
    | nil => simp [List.isPrefixOf] at h
    | cons b bs =>
      simp only [List.isPrefixOf, Bool.and_eq_true] at h
      have := ih h.2
      simp only [List.length_cons]
      omega

theorem isPrefixOf_false_of_shorter (w s : List ℕ) (h : s.length < w.length) :
    w.isPrefixOf s = false := by
  by_cases hb : w.isPrefixOf s
  · exfalso
    have := isPrefixOf_length_le hb
    omega
  · exact Bool.not_eq_true _ ▸ eq_false_of_ne_true hb

theorem searchWordAux_false_of_shorter (w : List ℕ) (b : Bool) (s : List ℕ)
    (h : s.length < w.length) : searchWordAux w b s = false := by
  induction s generalizing b with
  | nil => rfl
  | cons c rest ih =>
    simp only [searchWordAux]
    rw [isPrefixOf_false_of_shorter w (c :: rest) h]
    simp only [Bool.and_false, Bool.false_and, Bool.false_or]
    exact ih (isWordCode c) (by simp only [List.length_cons] at h ⊢; omega)

theorem searchWord_false_of_shorter (w s : List ℕ) (h : s.length < w.length) :
    searchWord w s = false :=
  searchWordAux_false_of_shorter w false s h

theorem containsSub_false_of_shorter (w s : List ℕ) (h : s.length < w.length) :
    containsSub w s = false := by
  induction s with
  | nil =>
    cases w with
    | nil => simp at h
    | cons a as => rfl
  | cons c rest ih =>
    simp only [containsSub]
    rw [isPrefixOf_false_of_shorter w (c :: rest) h]
    simp only [Bool.false_or]
    exact ih (by simp only [List.length_cons] at h ⊢; omega)

/-- Any name shorter than every pattern falls through to `weapon`. -/
theorem classify_short (s : List ℕ) (h : s.length < 4) :
    classify_item s = Category.weapon := by
  have hlen : (lowerCodes s).length = s.length := by simp [lowerCodes]
  have hsub : containsSub (codes "sticker") (lowerCodes s) = false := by
    apply containsSub_false_of_shorter
    rw [hlen, sticker_codes_length]
    omega
  have hkl : ∀ p ∈ CASE_KEYWORDS, 4 ≤ p.length := by decide
  have hkw : CASE_KEYWORDS.any (fun p => searchWord p (lowerCodes s)) = false := by
    rw [List.any_eq_false]
    intro p hp
    have h4 := hkl p hp
    simp [searchWord_false_of_shorter p (lowerCodes s) (by rw [hlen]; omega)]
  unfold classify_item
  rw [if_neg (by simp [hsub]), if_neg (by simp [hkw])]

theorem classify_wid (i : ℕ) : classify_item (wid i) = Category.weapon :=
  classify_short (wid i) (by simp [wid])

theorem classify_sticker_codes : classify_item (codes "sticker") = Category.sticker := by
  decide

theorem weapons_split_sticker :
    split_by_category Category.sticker ((List.range 5000).map wrow) = [] := by
  show ((List.range 5000).map wrow).filter
    (fun r => classify_item r.csfloat_id = Category.sticker) = []
  rw [List.filter_eq_nil_iff]
  intro r hr
  rcases List.mem_map.mp hr with ⟨i, _, rfl⟩
  simp [wrow, classify_wid i]

theorem bigRows_split_sticker :
    split_by_category Category.sticker bigRows = [srow] := by
  show bigRows.filter (fun r => classify_item r.csfloat_id = Category.sticker) = [srow]
  unfold bigRows
  rw [List.filter_append]
  rw [show ((List.range 5000).map wrow).filter
      (fun r => classify_item r.csfloat_id = Category.sticker) = [] from weapons_split_sticker]
  simp [srow, classify_sticker_codes]

/- Pipeline evaluations on `bigAlerts`. -/

theorem pipeline_price_big :
    pipeline_price 0 24 .pct 5000 bigAlerts = (List.range 5000).map wrow := by
  rw [pipeline_price_eq_take, ranked_price_full_big, bigRows_take]

theorem pipeline_quantity_big :
    pipeline_quantity 0 24 .pct 5000 bigAlerts = [] := by
  rw [pipeline_quantity_eq_take, ranked_quantity_full_big]
  rfl

theorem pipeline_any_big :
    pipeline_any 0 24 .pct 5000 bigAlerts = (List.range 5000).map wrow := by
  rw [pipeline_any_eq_take, ranked_any_full_big, bigRows_take]

theorem count_big : count_alerts_in_window bigAlerts 0 24 = 5001 := by
  unfold count_alerts_in_window
  rw [bigAlerts_filter]
  simp [bigAlerts]

theorem effective_window_big :
    effective_window none false bigAlerts 0 = (0, 24) := by
  unfold effective_window
  norm_num [day_window, count_big]

/-- C4 counterexample: with 5000 higher-scoring weapon-named items and
one lower-scoring sticker-named item in the day window, the produced
sticker snapshot document has empty top lists, although the top-50
sticker entries of the full ranked (pre-truncation) set contain the
sticker row — the hard-coded internal limit of 5000 starves the sticker
category. -/
theorem claimC4_counterexample :
    (top_changes_current_day none false .pct 50 bigAlerts 0).head? =
      some ⟨Category.sticker, 0, 24, [], [], []⟩ ∧
    (split_by_category Category.sticker
      (ranked_price_full 0 24 .pct bigAlerts)).take 50 = [srow] := by
  constructor
  · unfold top_changes_current_day
    rw [effective_window_big]
    dsimp only
    rw [pipeline_price_big, pipeline_quantity_big, pipeline_any_big]
    simp only [List.map_cons, List.head?_cons, Option.some.injEq]
    rw [weapons_split_sticker]
    rfl
  · rw [ranked_price_full_big, bigRows_split_sticker]
    rfl

/-- C4 amended: each category's top lists are the top-limit entries of
that category taken from the top-5000 globally ranked entries (the
pipelines truncate to a hard-coded internal limit of 5000 before
categorization); whenever the full ranked set holds at most 5000
entries, this coincides with the spec's "partition the full
pre-truncation set" behaviour, so starvation can only occur beyond 5000
ranked entries. -/
theorem claimC4_amended (metric : Metric) (lim : ℕ) (alerts : List AlertDoc) (today : ℤ)
    (hp : (ranked_price_full (effective_window none false alerts today).1
      (effective_window none false alerts today).2 metric alerts).length ≤ 5000)
    (hq : (ranked_quantity_full (effective_window none false alerts today).1
      (effective_window none false alerts today).2 metric alerts).length ≤ 5000)
    (ha : (ranked_any_full (effective_window none false alerts today).1
      (effective_window none false alerts today).2 metric alerts).length ≤ 5000) :
    ∀ doc ∈ top_changes_current_day none false metric lim alerts today,
      doc.top_price = (split_by_category doc.category
        (ranked_price_full (effective_window none false alerts today).1
          (effective_window none false alerts today).2 metric alerts)).take lim ∧
      doc.top_quantity = (split_by_category doc.category
        (ranked_quantity_full (effective_window none false alerts today).1
          (effective_window none false alerts today).2 metric alerts)).take lim ∧
      doc.top_any = (split_by_category doc.category
        (ranked_any_full (effective_window none false alerts today).1
          (effective_window none false alerts today).2 metric alerts)).take lim := by
  intro doc hdoc
  unfold top_changes_current_day at hdoc
  rcases List.mem_map.mp hdoc with ⟨cat, _, rfl⟩
  dsimp only
  rw [pipeline_price_eq_take, pipeline_quantity_eq_take, pipeline_any_eq_take,
    List.take_of_length_le hp, List.take_of_length_le hq, List.take_of_length_le ha]
  exact ⟨rfl, rfl, rfl⟩

/-- C4 witness: on an empty store the hypotheses hold and the produced
sticker document's lists agree with the spec's pre-truncation
categorization. -/
theorem claimC4_witness :
    (⟨Category.sticker, 0, 24, [], [], []⟩ : CatDoc) ∈
      top_changes_current_day none false .pct 50 [] 0 ∧
    (⟨Category.sticker, 0, 24, [], [], []⟩ : CatDoc).top_price =
      (split_by_category Category.sticker
        (ranked_price_full (effective_window none false [] 0).1
          (effective_window none false [] 0).2 .pct [])).take 50 := by
  have hmem : (⟨Category.sticker, 0, 24, [], [], []⟩ : CatDoc) ∈
      top_changes_current_day none false .pct 50 [] 0 := by
    decide
  exact ⟨hmem,
    (claimC4_amended .pct 50 [] 0 (by decide) (by decide) (by decide)
      _ hmem).1⟩

end Theorems
